import Mathlib

/-!
# Treasury wallet service — shallow embedding

A shallow embedding of `src/server/treasuryWalletService.ts`.

Modelling conventions:
* `decimal.js` `Decimal` values are modelled as exact rationals (`Rat`);
  every arithmetic the service performs (`plus`, `minus`, `lessThan`) is
  exact on the money-sized values involved.
* The database is a pair of tables: a list of wallet rows and a list of
  transaction rows, in insertion order.  A drizzle
  `select().where(eq(adminId)).limit(1)` is `List.find?` on the wallet
  rows, an `update().set().where(eq(adminId))` rewrites every row whose
  `adminId` matches, and an `insert` appends a row.
* `createdAt` / `updatedAt` timestamps are omitted: no claim mentions
  them and their values come from clock reads.
* A thrown `Error` is modelled by an `Except`-style result paired with
  the database state at the moment of the throw (both throw sites in the
  service precede every write, which the definitions reflect verbatim).
-/

namespace Treasury

/-- A row of the `treasuryWallets` table (one per admin in intent). -/
structure Wallet where
  adminId : String
  balance : Rat
  totalDeposited : Rat
  totalUsed : Rat
  totalEarned : Rat
  status : String
deriving Repr, DecidableEq

/-- The `type` column of a treasury wallet transaction row, as written by the
three mutating service operations. -/
inductive TxType where
  | deposit
  | debit
  | credit
deriving Repr, DecidableEq

/-- A row of the `treasuryWalletTransactions` table, with the columns the
service writes. -/
structure Txn where
  adminId : String
  type : TxType
  amount : Rat
  description : String
  reference : Option String
  relatedChallengeId : Option Int
  relatedMatchId : Option Int
  status : String
  balanceBefore : Rat
  balanceAfter : Rat
deriving Repr, DecidableEq

/-- The database state seen by the service: the two tables it touches. -/
structure DB where
  wallets : List Wallet
  transactions : List Txn
deriving Repr, DecidableEq

/-- A database with both tables empty. -/
def emptyDB : DB := ⟨[], []⟩

/-- Modelled from the spec: the default of the `status` column of the wallets
table.  The schema module (`shared/schema`) is not among the sources;
`createOrGetTreasuryWallet` leaves `status` to the database default, and the
spec only says a wallet row holds a status.  No claim depends on its value. -/
def defaultWalletStatus : String := "active"

/-- `getTreasuryWallet`: select the first wallet row whose `adminId` matches
(`.where(eq(treasuryWallets.adminId, adminId)).limit(1)`), or `null`. -/
def getTreasuryWallet (db : DB) (adminId : String) : Option Wallet :=
  db.wallets.find? (fun w => w.adminId == adminId)

/-- The wallet row inserted by `createOrGetTreasuryWallet`: all four money
columns start at `Decimal('0.00')`. -/
def newWallet (adminId : String) : Wallet :=
  { adminId := adminId, balance := 0, totalDeposited := 0, totalUsed := 0,
    totalEarned := 0, status := defaultWalletStatus }

/-- `createOrGetTreasuryWallet`: return the existing wallet if there is one,
otherwise insert a zeroed wallet row and return it. -/
def createOrGetTreasuryWallet (db : DB) (adminId : String) : DB × Wallet :=
  match getTreasuryWallet db adminId with
  | some existing => (db, existing)
  | none =>
    let w := newWallet adminId
    ({ db with wallets := db.wallets ++ [w] }, w)

/-- A drizzle `update(treasuryWallets).set(...).where(eq(adminId))`: rewrite
every wallet row whose `adminId` matches. -/
def updateWallet (db : DB) (adminId : String) (g : Wallet → Wallet) : DB :=
  { db with
    wallets := db.wallets.map (fun w => if w.adminId == adminId then g w else w) }

/-- A drizzle `insert(treasuryWalletTransactions).values(...)`: append one
transaction row. -/
def insertTxn (db : DB) (t : Txn) : DB :=
  { db with transactions := db.transactions ++ [t] }

/-- The wallet update issued by `depositToTreasuryWallet`: one database call,
whose new column values were computed from the earlier snapshot `wallet`. -/
def depositUpdateStep (db : DB) (adminId : String) (wallet : Wallet)
    (amount : Rat) : DB :=
  updateWallet db adminId (fun w =>
    { w with balance := wallet.balance + amount,
             totalDeposited := wallet.totalDeposited + amount })

/-- The transaction row inserted by `depositToTreasuryWallet`. -/
def depositTxn (adminId : String) (wallet : Wallet) (amount : Rat)
    (paystackReference : String) : Txn :=
  { adminId := adminId, type := TxType.deposit, amount := amount,
    description := "Deposited to Treasury wallet",
    reference := some paystackReference, relatedChallengeId := none,
    relatedMatchId := none, status := "completed",
    balanceBefore := wallet.balance, balanceAfter := wallet.balance + amount }

/-- `depositToTreasuryWallet`: look up or create the wallet, then issue the
snapshot-based balance update, then insert the transaction row; return the
new balance.  The three database calls are kept as separate steps, exactly
as the code awaits them one after another with no transaction wrapper. -/
def depositToTreasuryWallet (db : DB) (adminId : String) (amount : Rat)
    (paystackReference : String) : DB × Rat :=
  let res := createOrGetTreasuryWallet db adminId
  let wallet := res.2
  let db2 := depositUpdateStep res.1 adminId wallet amount
  let db3 := insertTxn db2 (depositTxn adminId wallet amount paystackReference)
  (db3, wallet.balance + amount)

/-- The two `throw new Error(...)` sites of the debit/credit operations. -/
inductive TreasuryError where
  | walletNotFound
  | insufficientBalance (haveAmt needAmt : Rat)
deriving Repr, DecidableEq

/-- The wallet update issued by `debitTreasuryWallet`. -/
def debitUpdateStep (db : DB) (adminId : String) (wallet : Wallet)
    (amount : Rat) : DB :=
  updateWallet db adminId (fun w =>
    { w with balance := wallet.balance - amount,
             totalUsed := wallet.totalUsed + amount })

/-- The transaction row inserted by `debitTreasuryWallet`. -/
def debitTxn (adminId : String) (wallet : Wallet) (amount : Rat)
    (description : String) (challengeId : Option Int) : Txn :=
  { adminId := adminId, type := TxType.debit, amount := amount,
    description := description, reference := none,
    relatedChallengeId := challengeId, relatedMatchId := none,
    status := "completed", balanceBefore := wallet.balance,
    balanceAfter := wallet.balance - amount }

/-- `debitTreasuryWallet`: throw if the wallet is missing, throw if its
balance is strictly below the amount, otherwise update the wallet, insert
the transaction row and return the new balance.  The returned `DB` is the
state when the call finishes or throws; both throws precede every write. -/
def debitTreasuryWallet (db : DB) (adminId : String) (amount : Rat)
    (description : String) (challengeId : Option Int) :
    DB × Except TreasuryError Rat :=
  match getTreasuryWallet db adminId with
  | none => (db, Except.error TreasuryError.walletNotFound)
  | some wallet =>
    if wallet.balance < amount then
      (db, Except.error (TreasuryError.insufficientBalance wallet.balance amount))
    else
      let db2 := debitUpdateStep db adminId wallet amount
      let db3 := insertTxn db2 (debitTxn adminId wallet amount description challengeId)
      (db3, Except.ok (wallet.balance - amount))

/-- The wallet update issued by `creditTreasuryWallet`. -/
def creditUpdateStep (db : DB) (adminId : String) (wallet : Wallet)
    (amount : Rat) : DB :=
  updateWallet db adminId (fun w =>
    { w with balance := wallet.balance + amount,
             totalEarned := wallet.totalEarned + amount })

/-- The transaction row inserted by `creditTreasuryWallet`. -/
def creditTxn (adminId : String) (wallet : Wallet) (amount : Rat)
    (description : String) (challengeId : Option Int)
    (matchId : Option Int) : Txn :=
  { adminId := adminId, type := TxType.credit, amount := amount,
    description := description, reference := none,
    relatedChallengeId := challengeId, relatedMatchId := matchId,
    status := "completed", balanceBefore := wallet.balance,
    balanceAfter := wallet.balance + amount }

/-- `creditTreasuryWallet`: throw if the wallet is missing, otherwise update
balance and `totalEarned`, insert the transaction row and return the new
balance. -/
def creditTreasuryWallet (db : DB) (adminId : String) (amount : Rat)
    (description : String) (challengeId : Option Int)
    (matchId : Option Int) : DB × Except TreasuryError Rat :=
  match getTreasuryWallet db adminId with
  | none => (db, Except.error TreasuryError.walletNotFound)
  | some wallet =>
    let db2 := creditUpdateStep db adminId wallet amount
    let db3 := insertTxn db2 (creditTxn adminId wallet amount description challengeId matchId)
    (db3, Except.ok (wallet.balance + amount))

/-- The summary object returned by `getTreasuryWalletSummary`. -/
structure TreasurySummary where
  balance : Rat
  totalDeposited : Rat
  totalUsed : Rat
  totalEarned : Rat
  netPnL : Rat
  status : String
deriving Repr, DecidableEq

/-- `getTreasuryWalletSummary`: `null` when the admin has no wallet,
otherwise the wallet's columns together with `netPnL = totalEarned -
totalUsed`. -/
def getTreasuryWalletSummary (db : DB) (adminId : String) :
    Option TreasurySummary :=
  match getTreasuryWallet db adminId with
  | none => none
  | some wallet =>
    some { balance := wallet.balance, totalDeposited := wallet.totalDeposited,
           totalUsed := wallet.totalUsed, totalEarned := wallet.totalEarned,
           netPnL := wallet.totalEarned - wallet.totalUsed,
           status := wallet.status }

/-- One sequential call into the service (the mutating entry points). -/
inductive ServiceCall where
  | createOrGet (adminId : String)
  | deposit (adminId : String) (amount : Rat) (paystackReference : String)
  | debit (adminId : String) (amount : Rat) (description : String)
      (challengeId : Option Int)
  | credit (adminId : String) (amount : Rat) (description : String)
      (challengeId : Option Int) (matchId : Option Int)
deriving Repr, DecidableEq

/-- Run one service call; `none` when the call throws. -/
def applyCall (db : DB) : ServiceCall → Option DB
  | ServiceCall.createOrGet a => some (createOrGetTreasuryWallet db a).1
  | ServiceCall.deposit a amt r => some (depositToTreasuryWallet db a amt r).1
  | ServiceCall.debit a amt d c =>
    match debitTreasuryWallet db a amt d c with
    | (db2, Except.ok _) => some db2
    | (_, Except.error _) => none
  | ServiceCall.credit a amt d c m =>
    match creditTreasuryWallet db a amt d c m with
    | (db2, Except.ok _) => some db2
    | (_, Except.error _) => none

/-- Run a sequence of service calls; `none` as soon as one throws. -/
def runCalls (db : DB) : List ServiceCall → Option DB
  | [] => some db
  | c :: cs =>
    match applyCall db c with
    | some db2 => runCalls db2 cs
    | none => none

/-- The per-wallet ledger invariant: balance equals deposits plus earnings
minus usage. -/
def walletInv (w : Wallet) : Prop :=
  w.balance = w.totalDeposited + w.totalEarned - w.totalUsed

instance (w : Wallet) : Decidable (walletInv w) := by
  unfold walletInv
  infer_instance

/-- At most one wallet row per admin. -/
def AdminIdsNodup (db : DB) : Prop :=
  (db.wallets.map Wallet.adminId).Nodup

instance (db : DB) : Decidable (AdminIdsNodup db) := by
  unfold AdminIdsNodup
  infer_instance

/-- The reachable-state invariant: unique admin ids, and every wallet row
satisfies the ledger invariant. -/
def DBInv (db : DB) : Prop :=
  AdminIdsNodup db ∧ ∀ w ∈ db.wallets, walletInv w

instance (db : DB) : Decidable (DBInv db) := by
  unfold DBInv
  infer_instance

/-- Pointwise order on the three running totals of a wallet. -/
def WalletTotalsLE (w w2 : Wallet) : Prop :=
  w.totalDeposited ≤ w2.totalDeposited ∧ w.totalUsed ≤ w2.totalUsed ∧
    w.totalEarned ≤ w2.totalEarned

instance (w w2 : Wallet) : Decidable (WalletTotalsLE w w2) := by
  unfold WalletTotalsLE
  infer_instance

/-- A concrete wallet row used to exercise the theorems. -/
def sampleWallet : Wallet :=
  { adminId := "admin1", balance := 10, totalDeposited := 10, totalUsed := 0,
    totalEarned := 0, status := "active" }

/-- A concrete database with one funded wallet. -/
def sampleDB : DB := ⟨[sampleWallet], []⟩

/-- A concrete database holding one freshly created (zeroed) wallet. -/
def zeroWalletDB : DB := ⟨[newWallet "admin1"], []⟩

/-- A concrete service-call sequence: create, deposit 10, debit 3, credit 2. -/
def runCallsExample : List ServiceCall :=
  [ServiceCall.createOrGet "admin1", ServiceCall.deposit "admin1" 10 "r",
   ServiceCall.debit "admin1" 3 "d" none,
   ServiceCall.credit "admin1" 2 "c" none none]

/-- The database `runCallsExample` produces from an empty database. -/
def runResultDB : DB :=
  ⟨[⟨"admin1", 9, 10, 3, 2, "active"⟩],
   [⟨"admin1", TxType.deposit, 10, "Deposited to Treasury wallet", some "r",
      none, none, "completed", 0, 10⟩,
    ⟨"admin1", TxType.debit, 3, "d", none, none, none, "completed", 10, 7⟩,
    ⟨"admin1", TxType.credit, 2, "c", none, none, none, "completed", 7, 9⟩]⟩

/-! ## Helper lemmas -/

theorem find?_map_invariant (u : Wallet → Wallet) (q : Wallet → Bool)
    (hq : ∀ w, q (u w) = q w) :
    ∀ l : List Wallet, (l.map u).find? q = (l.find? q).map u := by
  intro l
  induction l with
  | nil => rfl
  | cons x xs ih =>
    simp only [List.map_cons, List.find?_cons, hq]
    cases hx : q x
    · simpa [hx] using ih
    · simp [hx]

theorem find?_append_none {q : Wallet → Bool} {l1 : List Wallet}
    (l2 : List Wallet) (h : l1.find? q = none) :
    (l1 ++ l2).find? q = l2.find? q := by
  rw [List.find?_append, h, Option.none_or]

theorem find?_append_some {q : Wallet → Bool} {l1 : List Wallet}
    (l2 : List Wallet) {w : Wallet} (h : l1.find? q = some w) :
    (l1 ++ l2).find? q = some w := by
  rw [List.find?_append, h]
  rfl

/-- Inserting a transaction row does not touch the wallets table. -/
theorem getTreasuryWallet_insertTxn (db : DB) (t : Txn) (b : String) :
    getTreasuryWallet (insertTxn db t) b = getTreasuryWallet db b := rfl

/-- Updating wallet rows does not touch the transactions table. -/
theorem transactions_updateWallet (db : DB) (a : String) (g : Wallet → Wallet) :
    (updateWallet db a g).transactions = db.transactions := rfl

/-- Looking up the updated admin sees the row image under the update. -/
theorem getTreasuryWallet_update_self (db : DB) (a : String)
    (g : Wallet → Wallet) (hg : ∀ w, (g w).adminId = w.adminId) :
    getTreasuryWallet (updateWallet db a g) a =
      (getTreasuryWallet db a).map g := by
  unfold getTreasuryWallet updateWallet
  rw [find?_map_invariant _ _ (fun w => by by_cases h : w.adminId == a <;> simp [h, hg])]
  cases h : db.wallets.find? (fun w => w.adminId == a) with
  | none => rfl
  | some w =>
    have hb : w.adminId = a := by simpa using List.find?_some h
    simp [hb]

/-- Looking up a different admin is unaffected by the update. -/
theorem getTreasuryWallet_update_other (db : DB) (a b : String)
    (g : Wallet → Wallet) (hg : ∀ w, (g w).adminId = w.adminId)
    (hab : b ≠ a) :
    getTreasuryWallet (updateWallet db a g) b = getTreasuryWallet db b := by
  unfold getTreasuryWallet updateWallet
  rw [find?_map_invariant _ _ (fun w => by by_cases h : w.adminId == a <;> simp [h, hg])]
  cases h : db.wallets.find? (fun w => w.adminId == b) with
  | none => rfl
  | some w =>
    have hb : w.adminId = b := by simpa using List.find?_some h
    simp [hb, hab, Ne.symm hab]

/-- An update whose new column values never touch `adminId` keeps the
`adminId` column of every row. -/
theorem map_adminId_updateWallet (db : DB) (a : String) (g : Wallet → Wallet)
    (hg : ∀ w, (g w).adminId = w.adminId) :
    (updateWallet db a g).wallets.map Wallet.adminId =
      db.wallets.map Wallet.adminId := by
  unfold updateWallet
  rw [List.map_map]
  exact List.map_congr_left fun w _ => by
    by_cases h : w.adminId = a <;> simp [h, hg]

theorem createOrGet_found {db : DB} {a : String} {w : Wallet}
    (h : getTreasuryWallet db a = some w) :
    createOrGetTreasuryWallet db a = (db, w) := by
  unfold createOrGetTreasuryWallet
  rw [h]

theorem createOrGet_missing {db : DB} {a : String}
    (h : getTreasuryWallet db a = none) :
    createOrGetTreasuryWallet db a =
      ({ db with wallets := db.wallets ++ [newWallet a] }, newWallet a) := by
  unfold createOrGetTreasuryWallet
  rw [h]

/-- After `createOrGetTreasuryWallet`, the admin's lookup returns exactly the
wallet the call returned. -/
theorem getTreasuryWallet_createOrGet_self (db : DB) (a : String) :
    getTreasuryWallet (createOrGetTreasuryWallet db a).1 a =
      some (createOrGetTreasuryWallet db a).2 := by
  cases h : getTreasuryWallet db a with
  | some w => rw [createOrGet_found h]; exact h
  | none =>
    rw [createOrGet_missing h]
    unfold getTreasuryWallet at h ⊢
    simp only
    rw [find?_append_none _ h]
    simp [newWallet]

/-- `createOrGetTreasuryWallet` leaves every other admin's lookup alone. -/
theorem getTreasuryWallet_createOrGet_other (db : DB) (a b : String)
    (hab : b ≠ a) :
    getTreasuryWallet (createOrGetTreasuryWallet db a).1 b =
      getTreasuryWallet db b := by
  cases h : getTreasuryWallet db a with
  | some w => rw [createOrGet_found h]
  | none =>
    rw [createOrGet_missing h]
    unfold getTreasuryWallet
    simp only
    cases hb : db.wallets.find? (fun w => w.adminId == b) with
    | some w => exact find?_append_some _ hb
    | none =>
      rw [find?_append_none _ hb]
      simp [newWallet, hab, Ne.symm hab]

/-- `createOrGetTreasuryWallet` never removes or edits transaction rows. -/
theorem transactions_createOrGet (db : DB) (a : String) :
    (createOrGetTreasuryWallet db a).1.transactions = db.transactions := by
  cases h : getTreasuryWallet db a with
  | some w => rw [createOrGet_found h]
  | none => rw [createOrGet_missing h]

/-! ### Operation unfolding lemmas -/

/-- `depositToTreasuryWallet` on an existing wallet, as the three database
calls it issues. -/
theorem deposit_eq_existing {db : DB} {a : String} {w : Wallet}
    (amt : Rat) (r : String) (hw : getTreasuryWallet db a = some w) :
    depositToTreasuryWallet db a amt r =
      (insertTxn (depositUpdateStep db a w amt) (depositTxn a w amt r),
        w.balance + amt) := by
  unfold depositToTreasuryWallet
  rw [createOrGet_found hw]

/-- `depositToTreasuryWallet` without an existing wallet: the wallet row is
created first, then the same three-step flow runs on the zeroed wallet. -/
theorem deposit_eq_missing {db : DB} {a : String}
    (amt : Rat) (r : String) (hw : getTreasuryWallet db a = none) :
    depositToTreasuryWallet db a amt r =
      (insertTxn
          (depositUpdateStep { db with wallets := db.wallets ++ [newWallet a] }
            a (newWallet a) amt)
          (depositTxn a (newWallet a) amt r),
        0 + amt) := by
  unfold depositToTreasuryWallet
  rw [createOrGet_missing hw]
  rfl

/-- `debitTreasuryWallet` with no wallet: throws, database untouched. -/
theorem debit_eq_notFound {db : DB} {a : String}
    (amt : Rat) (d : String) (c : Option Int)
    (hw : getTreasuryWallet db a = none) :
    debitTreasuryWallet db a amt d c =
      (db, Except.error TreasuryError.walletNotFound) := by
  unfold debitTreasuryWallet
  rw [hw]

/-- `debitTreasuryWallet` with balance below the amount: throws, database
untouched. -/
theorem debit_eq_insufficient {db : DB} {a : String} {w : Wallet}
    (amt : Rat) (d : String) (c : Option Int)
    (hw : getTreasuryWallet db a = some w) (hlt : w.balance < amt) :
    debitTreasuryWallet db a amt d c =
      (db, Except.error (TreasuryError.insufficientBalance w.balance amt)) := by
  unfold debitTreasuryWallet
  rw [hw]
  simp [hlt]

/-- `debitTreasuryWallet` success, as the two database calls it issues. -/
theorem debit_eq_success {db : DB} {a : String} {w : Wallet}
    (amt : Rat) (d : String) (c : Option Int)
    (hw : getTreasuryWallet db a = some w) (hge : ¬ w.balance < amt) :
    debitTreasuryWallet db a amt d c =
      (insertTxn (debitUpdateStep db a w amt) (debitTxn a w amt d c),
        Except.ok (w.balance - amt)) := by
  unfold debitTreasuryWallet
  rw [hw]
  simp [hge]

/-- `creditTreasuryWallet` with no wallet: throws, database untouched. -/
theorem credit_eq_notFound {db : DB} {a : String}
    (amt : Rat) (d : String) (c m : Option Int)
    (hw : getTreasuryWallet db a = none) :
    creditTreasuryWallet db a amt d c m =
      (db, Except.error TreasuryError.walletNotFound) := by
  unfold creditTreasuryWallet
  rw [hw]

/-- `creditTreasuryWallet` success, as the two database calls it issues. -/
theorem credit_eq_success {db : DB} {a : String} {w : Wallet}
    (amt : Rat) (d : String) (c m : Option Int)
    (hw : getTreasuryWallet db a = some w) :
    creditTreasuryWallet db a amt d c m =
      (insertTxn (creditUpdateStep db a w amt) (creditTxn a w amt d c m),
        Except.ok (w.balance + amt)) := by
  unfold creditTreasuryWallet
  rw [hw]

/-! ### Lookup effect of each operation -/

/-- After a deposit on an existing wallet, that admin's row carries the new
balance and new running total. -/
theorem deposit_lookup_self {db : DB} {a : String} {w : Wallet}
    (amt : Rat) (r : String) (hw : getTreasuryWallet db a = some w) :
    getTreasuryWallet (depositToTreasuryWallet db a amt r).1 a =
      some { w with balance := w.balance + amt,
                    totalDeposited := w.totalDeposited + amt } := by
  rw [deposit_eq_existing amt r hw, getTreasuryWallet_insertTxn]
  have h2 := getTreasuryWallet_update_self db a
    (fun w2 => { w2 with balance := w.balance + amt,
                         totalDeposited := w.totalDeposited + amt })
    (fun w2 => rfl)
  rw [hw] at h2
  exact h2

/-- A deposit leaves every other admin's row alone. -/
theorem deposit_lookup_other {db : DB} (a b : String)
    (amt : Rat) (r : String) (hab : b ≠ a) :
    getTreasuryWallet (depositToTreasuryWallet db a amt r).1 b =
      getTreasuryWallet db b := by
  unfold depositToTreasuryWallet depositUpdateStep
  simp only
  rw [getTreasuryWallet_insertTxn,
    getTreasuryWallet_update_other ((createOrGetTreasuryWallet db a).1) a b
      (fun w2 =>
        { w2 with balance := (createOrGetTreasuryWallet db a).2.balance + amt,
                  totalDeposited :=
                    (createOrGetTreasuryWallet db a).2.totalDeposited + amt })
      (fun w2 => rfl) hab]
  exact getTreasuryWallet_createOrGet_other db a b hab

/-- After a successful debit, that admin's row carries the new balance and
new running total. -/
theorem debit_lookup_self {db : DB} {a : String} {w : Wallet}
    (amt : Rat) (d : String) (c : Option Int)
    (hw : getTreasuryWallet db a = some w) (hge : ¬ w.balance < amt) :
    getTreasuryWallet (debitTreasuryWallet db a amt d c).1 a =
      some { w with balance := w.balance - amt,
                    totalUsed := w.totalUsed + amt } := by
  rw [debit_eq_success amt d c hw hge, getTreasuryWallet_insertTxn]
  have h2 := getTreasuryWallet_update_self db a
    (fun w2 => { w2 with balance := w.balance - amt,
                         totalUsed := w.totalUsed + amt })
    (fun w2 => rfl)
  rw [hw] at h2
  exact h2

/-- After a successful credit, that admin's row carries the new balance and
new running total. -/
theorem credit_lookup_self {db : DB} {a : String} {w : Wallet}
    (amt : Rat) (d : String) (c m : Option Int)
    (hw : getTreasuryWallet db a = some w) :
    getTreasuryWallet (creditTreasuryWallet db a amt d c m).1 a =
      some { w with balance := w.balance + amt,
                    totalEarned := w.totalEarned + amt } := by
  rw [credit_eq_success amt d c m hw, getTreasuryWallet_insertTxn]
  have h2 := getTreasuryWallet_update_self db a
    (fun w2 => { w2 with balance := w.balance + amt,
                         totalEarned := w.totalEarned + amt })
    (fun w2 => rfl)
  rw [hw] at h2
  exact h2

/-! ### Invariant preservation -/

/-- With unique admin ids, any row matching an admin is the row `find?`
returned for that admin. -/
theorem nodup_unique_match {l : List Wallet}
    (hn : (l.map Wallet.adminId).Nodup) {a : String} {w : Wallet}
    (hf : l.find? (fun x => x.adminId == a) = some w) :
    ∀ w2 ∈ l, w2.adminId = a → w2 = w := by
  induction l with
  | nil => simp at hf
  | cons x xs ih =>
    rw [List.map_cons, List.nodup_cons] at hn
    intro w2 hw2 ha
    by_cases hx : x.adminId = a
    · have hwx : w = x := by
        rw [List.find?_cons] at hf
        simp only [hx, beq_self_eq_true] at hf
        exact (Option.some.inj hf).symm
      rcases List.mem_cons.mp hw2 with h | h
      · rw [h, hwx]
      · exfalso
        apply hn.1
        rw [hx, ← ha]
        exact List.mem_map_of_mem Wallet.adminId h
    · have hf2 : xs.find? (fun x => x.adminId == a) = some w := by
        rw [List.find?_cons] at hf
        simpa only [beq_eq_false_iff_ne.mpr hx] using hf
      rcases List.mem_cons.mp hw2 with h | h
      · exact absurd (h ▸ ha) hx
      · exact ih hn.2 hf2 w2 h ha

/-- An update whose new values come from the looked-up snapshot preserves the
database invariant when the snapshot's image keeps the ledger invariant. -/
theorem DBInv_updateWallet_snapshot {db : DB} {a : String} {wallet : Wallet}
    (g : Wallet → Wallet) (hg : ∀ w, (g w).adminId = w.adminId)
    (hinv : DBInv db) (hlook : getTreasuryWallet db a = some wallet)
    (hgw : walletInv (g wallet)) :
    DBInv (updateWallet db a g) := by
  obtain ⟨hnd, hall⟩ := hinv
  constructor
  · unfold AdminIdsNodup at hnd ⊢
    rw [map_adminId_updateWallet db a g hg]
    exact hnd
  · intro w2 hw2
    unfold updateWallet at hw2
    simp only [List.mem_map] at hw2
    obtain ⟨w, hwmem, hweq⟩ := hw2
    by_cases hx : w.adminId = a
    · have hww : w = wallet := nodup_unique_match hnd hlook w hwmem hx
      subst hww
      rw [← hweq]
      simpa [hx] using hgw
    · rw [← hweq]
      simpa [hx] using hall w hwmem

/-- The freshly created wallet row satisfies the ledger invariant. -/
theorem walletInv_newWallet (a : String) : walletInv (newWallet a) := by
  simp [walletInv, newWallet]

/-- `createOrGetTreasuryWallet` keeps admin ids unique. -/
theorem nodup_createOrGet {db : DB} (a : String) (hnd : AdminIdsNodup db) :
    AdminIdsNodup (createOrGetTreasuryWallet db a).1 := by
  cases h : getTreasuryWallet db a with
  | some w => rw [createOrGet_found h]; exact hnd
  | none =>
    rw [createOrGet_missing h]
    unfold AdminIdsNodup at hnd ⊢
    simp only [List.map_append, List.map_cons, List.map_nil]
    rw [List.nodup_append]
    refine ⟨hnd, List.nodup_singleton _, ?_⟩
    intro x hx hx2
    unfold getTreasuryWallet at h
    rw [List.find?_eq_none] at h
    obtain ⟨w, hwmem, hweq⟩ := List.mem_map.mp hx
    have : x = a := by simpa [newWallet] using hx2
    exact h w hwmem (by simp [hweq, this])

/-- `createOrGetTreasuryWallet` preserves the database invariant, and the
wallet it returns satisfies the ledger invariant. -/
theorem DBInv_createOrGet {db : DB} (a : String) (hinv : DBInv db) :
    DBInv (createOrGetTreasuryWallet db a).1 ∧
      walletInv (createOrGetTreasuryWallet db a).2 := by
  obtain ⟨hnd, hall⟩ := hinv
  refine ⟨⟨nodup_createOrGet a hnd, ?_⟩, ?_⟩
  · intro w hw
    cases h : getTreasuryWallet db a with
    | some w2 =>
      rw [createOrGet_found h] at hw
      exact hall w hw
    | none =>
      rw [createOrGet_missing h] at hw
      simp only [List.mem_append, List.mem_singleton] at hw
      rcases hw with hw | hw
      · exact hall w hw
      · rw [hw]; exact walletInv_newWallet a
  · cases h : getTreasuryWallet db a with
    | some w2 =>
      rw [createOrGet_found h]
      exact hall w2 (List.mem_of_find?_eq_some h)
    | none =>
      rw [createOrGet_missing h]
      exact walletInv_newWallet a

/-- One service call preserves the database invariant. -/
theorem DBInv_applyCall {db db2 : DB} {c : ServiceCall}
    (hinv : DBInv db) (h : applyCall db c = some db2) : DBInv db2 := by
  cases c with
  | createOrGet a =>
    rw [Option.some.inj h.symm]
    exact (DBInv_createOrGet a hinv).1
  | deposit a amt r =>
    rw [Option.some.inj h.symm]
    unfold depositToTreasuryWallet
    simp only
    refine DBInv_updateWallet_snapshot _ (fun w => rfl)
      (DBInv_createOrGet a hinv).1 (getTreasuryWallet_createOrGet_self db a) ?_
    have hwi := (DBInv_createOrGet a hinv).2
    unfold walletInv at hwi ⊢
    simp only
    linarith
  | debit a amt d c =>
    simp only [applyCall] at h
    cases hw : getTreasuryWallet db a with
    | none => rw [debit_eq_notFound amt d c hw] at h; exact absurd h (by simp)
    | some w =>
      by_cases hlt : w.balance < amt
      · rw [debit_eq_insufficient amt d c hw hlt] at h
        exact absurd h (by simp)
      · rw [debit_eq_success amt d c hw hlt] at h
        simp only at h
        rw [Option.some.inj h.symm]
        refine DBInv_updateWallet_snapshot _ (fun w2 => rfl) hinv hw ?_
        have hwi := hinv.2 w (List.mem_of_find?_eq_some hw)
        unfold walletInv at hwi ⊢
        simp only
        linarith
  | credit a amt d c m =>
    simp only [applyCall] at h
    cases hw : getTreasuryWallet db a with
    | none => rw [credit_eq_notFound amt d c m hw] at h; exact absurd h (by simp)
    | some w =>
      rw [credit_eq_success amt d c m hw] at h
      simp only at h
      rw [Option.some.inj h.symm]
      refine DBInv_updateWallet_snapshot _ (fun w2 => rfl) hinv hw ?_
      have hwi := hinv.2 w (List.mem_of_find?_eq_some hw)
      unfold walletInv at hwi ⊢
      simp only
      linarith

/-- A sequence of service calls preserves the database invariant. -/
theorem DBInv_runCalls {cs : List ServiceCall} :
    ∀ {db db2 : DB}, DBInv db → runCalls db cs = some db2 → DBInv db2 := by
  induction cs with
  | nil =>
    intro db db2 hinv h
    rw [runCalls] at h
    rw [Option.some.inj h.symm]
    exact hinv
  | cons c cs ih =>
    intro db db2 hinv h
    rw [runCalls] at h
    cases ha : applyCall db c with
    | none => rw [ha] at h; exact absurd h (by simp)
    | some db1 =>
      rw [ha] at h
      exact ih (DBInv_applyCall hinv ha) h

/-- One service call keeps admin ids unique. -/
theorem nodup_applyCall {db db2 : DB} {c : ServiceCall}
    (hnd : AdminIdsNodup db) (h : applyCall db c = some db2) :
    AdminIdsNodup db2 := by
  have hupd : ∀ (d3 : DB) (a : String) (g : Wallet → Wallet),
      (∀ w, (g w).adminId = w.adminId) → AdminIdsNodup d3 →
      AdminIdsNodup (updateWallet d3 a g) := by
    intro d3 a g hg hd3
    unfold AdminIdsNodup at hd3 ⊢
    rw [map_adminId_updateWallet d3 a g hg]
    exact hd3
  cases c with
  | createOrGet a =>
    rw [Option.some.inj h.symm]
    exact nodup_createOrGet a hnd
  | deposit a amt r =>
    rw [Option.some.inj h.symm]
    unfold depositToTreasuryWallet
    simp only
    exact hupd _ a _ (fun w => rfl) (nodup_createOrGet a hnd)
  | debit a amt d c =>
    simp only [applyCall] at h
    cases hw : getTreasuryWallet db a with
    | none => rw [debit_eq_notFound amt d c hw] at h; exact absurd h (by simp)
    | some w =>
      by_cases hlt : w.balance < amt
      · rw [debit_eq_insufficient amt d c hw hlt] at h
        exact absurd h (by simp)
      · rw [debit_eq_success amt d c hw hlt] at h
        simp only at h
        rw [Option.some.inj h.symm]
        exact hupd _ a _ (fun w2 => rfl) hnd
  | credit a amt d c m =>
    simp only [applyCall] at h
    cases hw : getTreasuryWallet db a with
    | none => rw [credit_eq_notFound amt d c m hw] at h; exact absurd h (by simp)
    | some w =>
      rw [credit_eq_success amt d c m hw] at h
      simp only at h
      rw [Option.some.inj h.symm]
      exact hupd _ a _ (fun w2 => rfl) hnd

/-- A sequence of service calls keeps admin ids unique. -/
theorem nodup_runCalls {cs : List ServiceCall} :
    ∀ {db db2 : DB}, AdminIdsNodup db → runCalls db cs = some db2 →
      AdminIdsNodup db2 := by
  induction cs with
  | nil =>
    intro db db2 hnd h
    rw [runCalls] at h
    rw [Option.some.inj h.symm]
    exact hnd
  | cons c cs ih =>
    intro db db2 hnd h
    rw [runCalls] at h
    cases ha : applyCall db c with
    | none => rw [ha] at h; exact absurd h (by simp)
    | some db1 =>
      rw [ha] at h
      exact ih (nodup_applyCall hnd ha) h

/-- One service call only ever appends to the transaction log. -/
theorem transactions_applyCall {db db2 : DB} {c : ServiceCall}
    (h : applyCall db c = some db2) :
    ∃ ts, db2.transactions = db.transactions ++ ts := by
  cases c with
  | createOrGet a =>
    rw [Option.some.inj h.symm]
    exact ⟨[], by rw [transactions_createOrGet, List.append_nil]⟩
  | deposit a amt r =>
    rw [Option.some.inj h.symm]
    unfold depositToTreasuryWallet
    simp only
    refine ⟨[depositTxn a (createOrGetTreasuryWallet db a).2 amt r], ?_⟩
    show (createOrGetTreasuryWallet db a).1.transactions ++ _ = _
    rw [transactions_createOrGet]
  | debit a amt d c =>
    simp only [applyCall] at h
    cases hw : getTreasuryWallet db a with
    | none => rw [debit_eq_notFound amt d c hw] at h; exact absurd h (by simp)
    | some w =>
      by_cases hlt : w.balance < amt
      · rw [debit_eq_insufficient amt d c hw hlt] at h
        exact absurd h (by simp)
      · rw [debit_eq_success amt d c hw hlt] at h
        simp only at h
        rw [Option.some.inj h.symm]
        exact ⟨[debitTxn a w amt d c], rfl⟩
  | credit a amt d c m =>
    simp only [applyCall] at h
    cases hw : getTreasuryWallet db a with
    | none => rw [credit_eq_notFound amt d c m hw] at h; exact absurd h (by simp)
    | some w =>
      rw [credit_eq_success amt d c m hw] at h
      simp only at h
      rw [Option.some.inj h.symm]
      exact ⟨[creditTxn a w amt d c m], rfl⟩

/-- A sequence of service calls only ever appends to the transaction log. -/
theorem transactions_runCalls {cs : List ServiceCall} :
    ∀ {db db2 : DB}, runCalls db cs = some db2 →
      ∃ ts, db2.transactions = db.transactions ++ ts := by
  induction cs with
  | nil =>
    intro db db2 h
    rw [runCalls] at h
    rw [Option.some.inj h.symm]
    exact ⟨[], (List.append_nil _).symm⟩
  | cons c cs ih =>
    intro db db2 h
    rw [runCalls] at h
    cases ha : applyCall db c with
    | none => rw [ha] at h; exact absurd h (by simp)
    | some db1 =>
      rw [ha] at h
      obtain ⟨ts1, h1⟩ := transactions_applyCall ha
      obtain ⟨ts2, h2⟩ := ih h
      exact ⟨ts1 ++ ts2, by rw [h2, h1, List.append_assoc]⟩

/-! ## Claim theorems -/

/-- C5: `debitTreasuryWallet` throws the insufficient-balance error exactly
when the wallet exists and its balance is strictly below the requested
amount, and whenever it throws (either error) the database — wallet rows and
transaction rows alike — is left unchanged. -/
theorem claim5_debit_error_spec (db : DB) (a : String) (amt : Rat)
    (d : String) (c : Option Int) :
    ((∃ hb nb, (debitTreasuryWallet db a amt d c).2 =
        Except.error (TreasuryError.insufficientBalance hb nb))
      ↔ ∃ w, getTreasuryWallet db a = some w ∧ w.balance < amt)
    ∧ ∀ e, (debitTreasuryWallet db a amt d c).2 = Except.error e →
        (debitTreasuryWallet db a amt d c).1 = db := by
  cases hw : getTreasuryWallet db a with
  | none =>
    rw [debit_eq_notFound amt d c hw]
    refine ⟨⟨?_, ?_⟩, fun e _ => rfl⟩
    · rintro ⟨hb, nb, h⟩
      exact absurd h (by simp)
    · rintro ⟨w, hw2, _⟩
      exact absurd hw2 (by simp)
  | some w =>
    by_cases hlt : w.balance < amt
    · rw [debit_eq_insufficient amt d c hw hlt]
      exact ⟨⟨fun _ => ⟨w, rfl, hlt⟩, fun _ => ⟨w.balance, amt, rfl⟩⟩,
        fun e _ => rfl⟩
    · rw [debit_eq_success amt d c hw hlt]
      refine ⟨⟨?_, ?_⟩, fun e he => absurd he (by simp)⟩
      · rintro ⟨hb, nb, h⟩
        exact absurd h (by simp)
      · rintro ⟨w2, hw2, hlt2⟩
        rw [← Option.some.inj hw2] at hlt2
        exact absurd hlt2 hlt

/-- C5 witness: on the sample wallet (balance 10), debiting 99 throws the
insufficient-balance error and leaves the database unchanged. -/
theorem claim5_debit_error_spec_witness :
    (∃ hb nb, (debitTreasuryWallet sampleDB "admin1" 99 "d" none).2 =
        Except.error (TreasuryError.insufficientBalance hb nb))
    ∧ (debitTreasuryWallet sampleDB "admin1" 99 "d" none).1 = sampleDB := by
  have h := claim5_debit_error_spec sampleDB "admin1" 99 "d" none
  have h1 : ∃ w, getTreasuryWallet sampleDB "admin1" = some w ∧
      w.balance < 99 := by
    refine ⟨sampleWallet, ?_, ?_⟩ <;>
      norm_num [getTreasuryWallet, sampleDB, sampleWallet, List.find?]
  obtain ⟨hb, nb, he⟩ := h.1.mpr h1
  exact ⟨⟨hb, nb, he⟩, h.2 _ he⟩

/-- C9: `getTreasuryWalletSummary` returns `null` exactly when the admin has
no wallet; otherwise it passes the wallet's columns through unchanged and
adds `netPnL = totalEarned - totalUsed`, exactly. -/
theorem claim9_summary_spec (db : DB) (a : String) :
    (getTreasuryWalletSummary db a = none ↔ getTreasuryWallet db a = none)
    ∧ ∀ w, getTreasuryWallet db a = some w →
        getTreasuryWalletSummary db a =
          some { balance := w.balance, totalDeposited := w.totalDeposited,
                 totalUsed := w.totalUsed, totalEarned := w.totalEarned,
                 netPnL := w.totalEarned - w.totalUsed,
                 status := w.status } := by
  unfold getTreasuryWalletSummary
  cases h : getTreasuryWallet db a with
  | none => simp
  | some w => simp

/-- C9 witness: the sample wallet's summary, with `netPnL = 0 - 0`. -/
theorem claim9_summary_spec_witness :
    getTreasuryWalletSummary sampleDB "admin1" =
      some { balance := 10, totalDeposited := 10, totalUsed := 0,
             totalEarned := 0, netPnL := 0, status := "active" } := by
  have h := (claim9_summary_spec sampleDB "admin1").2 sampleWallet
    (by norm_num [getTreasuryWallet, sampleDB, sampleWallet, List.find?])
  rw [h]
  norm_num [sampleWallet]

/-- C8: `createOrGetTreasuryWallet` returns the existing wallet without
inserting when one exists, and any sequence of sequential service calls
keeps admin ids unique, so it never produces two wallet rows with the same
`adminId`. -/
theorem claim8_one_wallet_per_admin (db db2 : DB) (a : String) (w : Wallet)
    (cs : List ServiceCall) (hnd : AdminIdsNodup db)
    (hrun : runCalls db cs = some db2) :
    AdminIdsNodup db2
    ∧ (getTreasuryWallet db a = some w →
        createOrGetTreasuryWallet db a = (db, w)) :=
  ⟨nodup_runCalls hnd hrun, fun h => createOrGet_found h⟩

/-- C8 witness: a create / create-again / deposit run from the empty
database leaves a single wallet row for the admin, and `createOrGet` on the
sample database returns the existing wallet without touching it. -/
theorem claim8_one_wallet_per_admin_witness :
    AdminIdsNodup
      ⟨[⟨"admin1", 10, 10, 0, 0, "active"⟩],
       [⟨"admin1", TxType.deposit, 10, "Deposited to Treasury wallet",
         some "r", none, none, "completed", 0, 10⟩]⟩
    ∧ createOrGetTreasuryWallet sampleDB "admin1" = (sampleDB, sampleWallet) := by
  have h := claim8_one_wallet_per_admin emptyDB
    ⟨[⟨"admin1", 10, 10, 0, 0, "active"⟩],
     [⟨"admin1", TxType.deposit, 10, "Deposited to Treasury wallet",
       some "r", none, none, "completed", 0, 10⟩]⟩
    "admin1" sampleWallet
    [ServiceCall.createOrGet "admin1", ServiceCall.createOrGet "admin1",
     ServiceCall.deposit "admin1" 10 "r"]
    (by norm_num [AdminIdsNodup, emptyDB])
    (by norm_num [runCalls, applyCall, createOrGetTreasuryWallet,
      getTreasuryWallet, depositToTreasuryWallet, depositUpdateStep,
      updateWallet, insertTxn, depositTxn, newWallet, defaultWalletStatus,
      emptyDB, List.find?])
  have h2 := claim8_one_wallet_per_admin sampleDB sampleDB "admin1"
    sampleWallet []
    (by norm_num [AdminIdsNodup, sampleDB, sampleWallet]) rfl
  exact ⟨h.1,
    h2.2 (by norm_num [getTreasuryWallet, sampleDB, sampleWallet, List.find?])⟩

/-- C7: the transaction log is append-only — any successful sequence of
service calls leaves every existing transaction row in place (the old log is
a prefix of the new one), so no call updates or deletes a recorded row. -/
theorem claim7_append_only_log (db db2 : DB) (cs : List ServiceCall)
    (hrun : runCalls db cs = some db2) :
    ∃ ts, db2.transactions = db.transactions ++ ts :=
  transactions_runCalls hrun

/-- C7 witness: a deposit-then-debit run on the sample database appends two
rows after the existing log. -/
theorem claim7_append_only_log_witness :
    ∃ ts,
      ((runCalls sampleDB
        [ServiceCall.deposit "admin1" 5 "r",
         ServiceCall.debit "admin1" 3 "d" none]).getD emptyDB).transactions =
        sampleDB.transactions ++ ts := by
  cases hrun : runCalls sampleDB
      [ServiceCall.deposit "admin1" 5 "r",
       ServiceCall.debit "admin1" 3 "d" none] with
  | none =>
    exfalso
    revert hrun
    norm_num [runCalls, applyCall, depositToTreasuryWallet, debitTreasuryWallet,
      createOrGetTreasuryWallet, getTreasuryWallet, depositUpdateStep,
      debitUpdateStep, updateWallet, insertTxn, sampleDB, sampleWallet,
      List.find?]
    exact fun h => Option.noConfusion h
  | some db2 =>
    obtain ⟨ts, hts⟩ := claim7_append_only_log sampleDB db2 _ hrun
    exact ⟨ts, by simp [hts]⟩

/-- C6: starting from any database whose wallets were produced by the
service (unique admins, ledger-consistent rows — in particular a wallet
freshly created by `createOrGetTreasuryWallet`, which zeroes all four money
columns), every successful sequence of deposits, debits and credits keeps
`balance = totalDeposited + totalEarned - totalUsed` on every wallet row. -/
theorem claim6_ledger_invariant (db db2 : DB) (cs : List ServiceCall)
    (hinv : DBInv db) (hrun : runCalls db cs = some db2) :
    ∀ w ∈ db2.wallets,
      w.balance = w.totalDeposited + w.totalEarned - w.totalUsed :=
  fun w hw => (DBInv_runCalls hinv hrun).2 w hw

/-- C6 witness: a create / deposit 10 / debit 3 / credit 2 run from the
empty database ends at balance 9 = 10 + 2 - 3. -/
theorem claim6_ledger_invariant_witness :
    DBInv emptyDB ∧
      ∀ w ∈ runResultDB.wallets,
        w.balance = w.totalDeposited + w.totalEarned - w.totalUsed := by
  have hinv : DBInv emptyDB := by
    refine ⟨by norm_num [AdminIdsNodup, emptyDB], ?_⟩
    intro w hw
    simp [emptyDB] at hw
  refine ⟨hinv, claim6_ledger_invariant emptyDB runResultDB runCallsExample hinv ?_⟩
  norm_num [runCalls, applyCall, runCallsExample, runResultDB,
    depositToTreasuryWallet, debitTreasuryWallet, creditTreasuryWallet,
    createOrGetTreasuryWallet, getTreasuryWallet, depositUpdateStep,
    debitUpdateStep, creditUpdateStep, updateWallet, insertTxn, depositTxn,
    debitTxn, creditTxn, newWallet, defaultWalletStatus, emptyDB, List.find?]

/-- C1: on an existing wallet, each successful mutating operation moves the
stored balance by exactly the amount — plus for deposit and credit, minus
for debit — in exact `Rat` arithmetic, and returns that new balance. -/
theorem claim1_balance_delta (db : DB) (a : String) (amt : Rat)
    (r d1 d2 : String) (c1 c2 m : Option Int) (w : Wallet)
    (hw : getTreasuryWallet db a = some w) :
    ((depositToTreasuryWallet db a amt r).2 = w.balance + amt
      ∧ getTreasuryWallet (depositToTreasuryWallet db a amt r).1 a =
          some { w with balance := w.balance + amt,
                        totalDeposited := w.totalDeposited + amt })
    ∧ (¬ w.balance < amt →
        (debitTreasuryWallet db a amt d1 c1).2 = Except.ok (w.balance - amt)
        ∧ getTreasuryWallet (debitTreasuryWallet db a amt d1 c1).1 a =
            some { w with balance := w.balance - amt,
                          totalUsed := w.totalUsed + amt })
    ∧ ((creditTreasuryWallet db a amt d2 c2 m).2 = Except.ok (w.balance + amt)
      ∧ getTreasuryWallet (creditTreasuryWallet db a amt d2 c2 m).1 a =
          some { w with balance := w.balance + amt,
                        totalEarned := w.totalEarned + amt }) := by
  refine ⟨⟨?_, deposit_lookup_self amt r hw⟩,
    fun hge => ⟨?_, debit_lookup_self amt d1 c1 hw hge⟩,
    ?_, credit_lookup_self amt d2 c2 m hw⟩
  · rw [deposit_eq_existing amt r hw]
  · rw [debit_eq_success amt d1 c1 hw hge]
  · rw [credit_eq_success amt d2 c2 m hw]

/-- C1 witness: on the sample wallet (balance 10), depositing 5 yields 15,
debiting 5 yields 5, crediting 5 yields 15, each returned and stored. -/
theorem claim1_balance_delta_witness :
    ((depositToTreasuryWallet sampleDB "admin1" 5 "r").2 = 15
      ∧ getTreasuryWallet (depositToTreasuryWallet sampleDB "admin1" 5 "r").1
          "admin1" = some ⟨"admin1", 15, 15, 0, 0, "active"⟩)
    ∧ ((debitTreasuryWallet sampleDB "admin1" 5 "d" none).2 = Except.ok 5
      ∧ getTreasuryWallet (debitTreasuryWallet sampleDB "admin1" 5 "d" none).1
          "admin1" = some ⟨"admin1", 5, 10, 5, 0, "active"⟩)
    ∧ ((creditTreasuryWallet sampleDB "admin1" 5 "c" none none).2 =
        Except.ok 15
      ∧ getTreasuryWallet
          (creditTreasuryWallet sampleDB "admin1" 5 "c" none none).1
          "admin1" = some ⟨"admin1", 15, 10, 0, 5, "active"⟩) := by
  have h := claim1_balance_delta sampleDB "admin1" 5 "r" "d" "c" none none
    none sampleWallet
    (by norm_num [getTreasuryWallet, sampleDB, sampleWallet, List.find?])
  obtain ⟨⟨h1, h2⟩, h3, h4, h5⟩ := h
  obtain ⟨h3a, h3b⟩ := h3 (by norm_num [sampleWallet])
  refine ⟨⟨?_, ?_⟩, ⟨?_, ?_⟩, ?_, ?_⟩
  · rw [h1]; norm_num [sampleWallet]
  · rw [h2]; norm_num [sampleWallet]
  · rw [h3a]; norm_num [sampleWallet]
  · rw [h3b]; norm_num [sampleWallet]
  · rw [h4]; norm_num [sampleWallet]
  · rw [h5]; norm_num [sampleWallet]

/-- C3: each successful mutating operation appends exactly one transaction
row, whose `type` names the operation, whose `amount` is the operation's
amount, and whose `balanceBefore` / `balanceAfter` are the wallet's stored
balance before and after the operation. -/
theorem claim3_transaction_rows (db : DB) (a : String) (amt : Rat)
    (r d1 d2 : String) (c1 c2 m : Option Int) (w : Wallet)
    (hw : getTreasuryWallet db a = some w) :
    ((depositToTreasuryWallet db a amt r).1.transactions =
        db.transactions ++
          [{ adminId := a, type := TxType.deposit, amount := amt,
             description := "Deposited to Treasury wallet",
             reference := some r, relatedChallengeId := none,
             relatedMatchId := none, status := "completed",
             balanceBefore := w.balance, balanceAfter := w.balance + amt }]
      ∧ getTreasuryWallet (depositToTreasuryWallet db a amt r).1 a =
          some { w with balance := w.balance + amt,
                        totalDeposited := w.totalDeposited + amt })
    ∧ (¬ w.balance < amt →
        (debitTreasuryWallet db a amt d1 c1).1.transactions =
          db.transactions ++
            [{ adminId := a, type := TxType.debit, amount := amt,
               description := d1, reference := none,
               relatedChallengeId := c1, relatedMatchId := none,
               status := "completed", balanceBefore := w.balance,
               balanceAfter := w.balance - amt }]
        ∧ getTreasuryWallet (debitTreasuryWallet db a amt d1 c1).1 a =
            some { w with balance := w.balance - amt,
                          totalUsed := w.totalUsed + amt })
    ∧ ((creditTreasuryWallet db a amt d2 c2 m).1.transactions =
        db.transactions ++
          [{ adminId := a, type := TxType.credit, amount := amt,
             description := d2, reference := none,
             relatedChallengeId := c2, relatedMatchId := m,
             status := "completed", balanceBefore := w.balance,
             balanceAfter := w.balance + amt }]
      ∧ getTreasuryWallet (creditTreasuryWallet db a amt d2 c2 m).1 a =
          some { w with balance := w.balance + amt,
                        totalEarned := w.totalEarned + amt }) := by
  refine ⟨⟨?_, deposit_lookup_self amt r hw⟩,
    fun hge => ⟨?_, debit_lookup_self amt d1 c1 hw hge⟩,
    ?_, credit_lookup_self amt d2 c2 m hw⟩
  · rw [deposit_eq_existing amt r hw]
    rfl
  · rw [debit_eq_success amt d1 c1 hw hge]
    rfl
  · rw [credit_eq_success amt d2 c2 m hw]
    rfl

/-- C3 witness: the rows the three operations append on the sample wallet,
with their captured before/after snapshots. -/
theorem claim3_transaction_rows_witness :
    (depositToTreasuryWallet sampleDB "admin1" 5 "r").1.transactions =
      [⟨"admin1", TxType.deposit, 5, "Deposited to Treasury wallet",
        some "r", none, none, "completed", 10, 15⟩]
    ∧ (debitTreasuryWallet sampleDB "admin1" 5 "d" none).1.transactions =
      [⟨"admin1", TxType.debit, 5, "d", none, none, none, "completed",
        10, 5⟩]
    ∧ (creditTreasuryWallet sampleDB "admin1" 5 "c" none none).1.transactions =
      [⟨"admin1", TxType.credit, 5, "c", none, none, none, "completed",
        10, 15⟩] := by
  have h := claim3_transaction_rows sampleDB "admin1" 5 "r" "d" "c" none
    none none sampleWallet
    (by norm_num [getTreasuryWallet, sampleDB, sampleWallet, List.find?])
  obtain ⟨⟨h1, _⟩, h3, h5, _⟩ := h
  obtain ⟨h3a, _⟩ := h3 (by norm_num [sampleWallet])
  refine ⟨?_, ?_, ?_⟩
  · rw [h1]; norm_num [sampleDB, sampleWallet]
  · rw [h3a]; norm_num [sampleDB, sampleWallet]
  · rw [h5]; norm_num [sampleDB, sampleWallet]

theorem walletTotalsLE_refl (w : Wallet) : WalletTotalsLE w w :=
  ⟨le_refl _, le_refl _, le_refl _⟩

/-- C2 counterexample: `depositToTreasuryWallet` accepts any `amount`
argument, and a deposit of `-1` shrinks `totalDeposited` from 10 to 9, so
the running totals are not monotone for arbitrary amounts. -/
theorem claim2_totals_counterexample :
    (getTreasuryWallet sampleDB "admin1").map Wallet.totalDeposited = some 10
    ∧ (getTreasuryWallet
        (depositToTreasuryWallet sampleDB "admin1" (-1) "r").1
        "admin1").map Wallet.totalDeposited = some 9
    ∧ (9 : Rat) < 10 := by
  norm_num [getTreasuryWallet, depositToTreasuryWallet,
    createOrGetTreasuryWallet, depositUpdateStep, updateWallet, insertTxn,
    sampleDB, sampleWallet, List.find?]

/-- C2 amended: for every mutating operation with a NON-NEGATIVE amount
argument, the running totals of every admin's wallet (as the service looks
it up) never decrease; with a negative amount the claim fails, as
`claim2_totals_counterexample` shows. -/
theorem claim2_totals_monotone (db : DB) (a b : String) (amt : Rat)
    (r d1 d2 : String) (c1 c2 m : Option Int) (w : Wallet)
    (h0 : 0 ≤ amt) (hw : getTreasuryWallet db b = some w) :
    (∃ w2, getTreasuryWallet (depositToTreasuryWallet db a amt r).1 b =
        some w2 ∧ WalletTotalsLE w w2)
    ∧ (∃ w2, getTreasuryWallet (debitTreasuryWallet db a amt d1 c1).1 b =
        some w2 ∧ WalletTotalsLE w w2)
    ∧ (∃ w2, getTreasuryWallet (creditTreasuryWallet db a amt d2 c2 m).1 b =
        some w2 ∧ WalletTotalsLE w w2) := by
  by_cases hab : b = a
  · subst hab
    refine ⟨⟨_, deposit_lookup_self amt r hw, ?_⟩, ?_,
      _, credit_lookup_self amt d2 c2 m hw, ?_⟩
    · exact ⟨by show w.totalDeposited ≤ w.totalDeposited + amt; linarith,
        le_refl _, le_refl _⟩
    · by_cases hlt : w.balance < amt
      · rw [debit_eq_insufficient amt d1 c1 hw hlt]
        exact ⟨w, hw, walletTotalsLE_refl w⟩
      · refine ⟨_, debit_lookup_self amt d1 c1 hw hlt, le_refl _, ?_,
          le_refl _⟩
        show w.totalUsed ≤ w.totalUsed + amt
        linarith
    · exact ⟨le_refl _, le_refl _,
        by show w.totalEarned ≤ w.totalEarned + amt; linarith⟩
  · refine ⟨⟨w, ?_, walletTotalsLE_refl w⟩, ?_, ?_⟩
    · rw [deposit_lookup_other a b amt r hab, hw]
    · cases hwa : getTreasuryWallet db a with
      | none =>
        rw [debit_eq_notFound amt d1 c1 hwa]
        exact ⟨w, hw, walletTotalsLE_refl w⟩
      | some wa =>
        by_cases hlt : wa.balance < amt
        · rw [debit_eq_insufficient amt d1 c1 hwa hlt]
          exact ⟨w, hw, walletTotalsLE_refl w⟩
        · rw [debit_eq_success amt d1 c1 hwa hlt]
          refine ⟨w, ?_, walletTotalsLE_refl w⟩
          rw [getTreasuryWallet_insertTxn]
          have h2 := getTreasuryWallet_update_other db a b
            (fun w2 => { w2 with balance := wa.balance - amt,
                                 totalUsed := wa.totalUsed + amt })
            (fun w2 => rfl) hab
          rw [show getTreasuryWallet (debitUpdateStep db a wa amt) b =
              getTreasuryWallet db b from h2]
          exact hw
    · cases hwa : getTreasuryWallet db a with
      | none =>
        rw [credit_eq_notFound amt d2 c2 m hwa]
        exact ⟨w, hw, walletTotalsLE_refl w⟩
      | some wa =>
        rw [credit_eq_success amt d2 c2 m hwa]
        refine ⟨w, ?_, walletTotalsLE_refl w⟩
        rw [getTreasuryWallet_insertTxn]
        have h2 := getTreasuryWallet_update_other db a b
          (fun w2 => { w2 with balance := wa.balance + amt,
                               totalEarned := wa.totalEarned + amt })
          (fun w2 => rfl) hab
        rw [show getTreasuryWallet (creditUpdateStep db a wa amt) b =
            getTreasuryWallet db b from h2]
        exact hw

/-- C2 amended witness: with amount 5 on the sample wallet, all three
operations keep the totals at or above their previous values. -/
theorem claim2_totals_monotone_witness :
    (0 : Rat) ≤ 5
    ∧ ((∃ w2, getTreasuryWallet
          (depositToTreasuryWallet sampleDB "admin1" 5 "r").1 "admin1" =
          some w2 ∧ WalletTotalsLE sampleWallet w2)
      ∧ (∃ w2, getTreasuryWallet
          (debitTreasuryWallet sampleDB "admin1" 5 "d" none).1 "admin1" =
          some w2 ∧ WalletTotalsLE sampleWallet w2)
      ∧ (∃ w2, getTreasuryWallet
          (creditTreasuryWallet sampleDB "admin1" 5 "c" none none).1
          "admin1" = some w2 ∧ WalletTotalsLE sampleWallet w2)) :=
  ⟨by norm_num,
   claim2_totals_monotone sampleDB "admin1" "admin1" 5 "r" "d" "c" none none
     none sampleWallet (by norm_num)
     (by norm_num [getTreasuryWallet, sampleDB, sampleWallet, List.find?])⟩

/-- C4 counterexample: with no wallet for the admin, `debitTreasuryWallet`
and `creditTreasuryWallet` do throw the wallet-not-found error instead of
creating the wallet, so not every ledger operation performs
lookup-or-create. -/
theorem claim4_counterexample :
    getTreasuryWallet emptyDB "admin1" = none
    ∧ (debitTreasuryWallet emptyDB "admin1" 1 "fund match" none).2 =
        Except.error TreasuryError.walletNotFound
    ∧ (creditTreasuryWallet emptyDB "admin1" 1 "match won" none none).2 =
        Except.error TreasuryError.walletNotFound := by
  norm_num [getTreasuryWallet, debitTreasuryWallet, creditTreasuryWallet,
    emptyDB, List.find?]

/-- After a deposit with no pre-existing wallet, the admin's row is the
freshly created wallet with the deposit applied. -/
theorem deposit_lookup_missing {db : DB} {a : String} (amt : Rat) (r : String)
    (h : getTreasuryWallet db a = none) :
    getTreasuryWallet (depositToTreasuryWallet db a amt r).1 a =
      some { newWallet a with balance := 0 + amt,
                              totalDeposited := 0 + amt } := by
  rw [deposit_eq_missing amt r h, getTreasuryWallet_insertTxn]
  have hl : getTreasuryWallet
      { db with wallets := db.wallets ++ [newWallet a] } a =
      some (newWallet a) := by
    unfold getTreasuryWallet at h ⊢
    simp only
    rw [find?_append_none _ h]
    simp [newWallet]
  have h2 := getTreasuryWallet_update_self
    { db with wallets := db.wallets ++ [newWallet a] } a
    (fun w2 => { w2 with balance := (newWallet a).balance + amt,
                         totalDeposited := (newWallet a).totalDeposited + amt })
    (fun w2 => rfl)
  rw [hl] at h2
  exact h2

/-- C4 amended: only `depositToTreasuryWallet` performs lookup-or-create —
for an admin with no wallet it creates the zeroed wallet and applies its
delta instead of failing — while `debitTreasuryWallet` and
`creditTreasuryWallet` throw the wallet-not-found error and leave the
database unchanged. -/
theorem claim4_lookup_or_create (db : DB) (a : String) (amt : Rat)
    (r d1 d2 : String) (c1 c2 m : Option Int)
    (h : getTreasuryWallet db a = none) :
    getTreasuryWallet (depositToTreasuryWallet db a amt r).1 a =
      some { newWallet a with balance := 0 + amt,
                              totalDeposited := 0 + amt }
    ∧ debitTreasuryWallet db a amt d1 c1 =
        (db, Except.error TreasuryError.walletNotFound)
    ∧ creditTreasuryWallet db a amt d2 c2 m =
        (db, Except.error TreasuryError.walletNotFound) :=
  ⟨deposit_lookup_missing amt r h, debit_eq_notFound amt d1 c1 h,
   credit_eq_notFound amt d2 c2 m h⟩

/-- C4 amended witness: depositing 7 with no wallet creates the wallet and
stores balance 7; debit and credit on the empty database throw. -/
theorem claim4_lookup_or_create_witness :
    getTreasuryWallet (depositToTreasuryWallet emptyDB "admin1" 7 "r").1
      "admin1" = some ⟨"admin1", 7, 7, 0, 0, "active"⟩
    ∧ debitTreasuryWallet emptyDB "admin1" 7 "d" none =
        (emptyDB, Except.error TreasuryError.walletNotFound)
    ∧ creditTreasuryWallet emptyDB "admin1" 7 "c" none none =
        (emptyDB, Except.error TreasuryError.walletNotFound) := by
  have h := claim4_lookup_or_create emptyDB "admin1" 7 "r" "d" "c" none none
    none (by norm_num [getTreasuryWallet, emptyDB, List.find?])
  refine ⟨?_, h.2.1, h.2.2⟩
  rw [h.1]
  norm_num [newWallet, defaultWalletStatus]

/-- C10: each ledger operation is a non-atomic read-update-insert sequence
(the definition of `depositToTreasuryWallet` is literally the composition of
`createOrGetTreasuryWallet`, `depositUpdateStep` and `insertTxn`, mirroring
the three separately awaited database calls with no transaction or lock).
Interleaving two deposits of 5 and 7 on a zero-balance wallet so that both
snapshot reads happen before either write ends at balance 7, while the
sequential runs end at 12: the first deposit is lost. -/
theorem claim10_lost_update :
    (getTreasuryWallet
        (insertTxn
          (depositUpdateStep
            (insertTxn
              (depositUpdateStep zeroWalletDB "admin1"
                (createOrGetTreasuryWallet zeroWalletDB "admin1").2 5)
              (depositTxn "admin1"
                (createOrGetTreasuryWallet zeroWalletDB "admin1").2 5 "r1"))
            "admin1" (createOrGetTreasuryWallet zeroWalletDB "admin1").2 7)
          (depositTxn "admin1"
            (createOrGetTreasuryWallet zeroWalletDB "admin1").2 7 "r2"))
        "admin1").map Wallet.balance = some 7
    ∧ (getTreasuryWallet
        (depositToTreasuryWallet
          (depositToTreasuryWallet zeroWalletDB "admin1" 5 "r1").1
          "admin1" 7 "r2").1 "admin1").map Wallet.balance = some 12
    ∧ (7 : Rat) ≠ 12 := by
  norm_num [getTreasuryWallet, createOrGetTreasuryWallet,
    depositToTreasuryWallet, depositUpdateStep, updateWallet, insertTxn,
    depositTxn, zeroWalletDB, newWallet, defaultWalletStatus, List.find?]

end Treasury
